import Mathlib

/-!
# Verification of the mitten environmental-data pipeline

Shallow embedding of the repository's data model and operations:

* `backend/scripts/simple_geojson_converter.js` — GeoJSON coordinate
  extraction (`extractCoordinates`) and even sampling (`sampleCoordinates`).
* `frontend/src/server/api/routers/environmental.ts` — query
  categorisation (`processWithGemini`'s keyword rules, embedded as
  `categorize`) and visualization synthesis (`generateVisualizations`,
  `generateSingleVisualization`).

JavaScript numbers are modelled as rationals (`ℚ`): every claim under
verification is about which arithmetic transformation is applied
(`1 - intensity`, `value * 0.6`, `Math.abs(change)`), not about binary
floating-point rounding.  Strings are modelled as `String` / `List Char`.
-/

namespace Mitten

/-! ## Sampling (`sampleCoordinates`, simple_geojson_converter.js lines 41–48)

```js
function sampleCoordinates(coords, n = 50) {
  const step = Math.max(Math.floor(coords.length / n), 1);
  const sampled = [];
  for (let i = 0; i < coords.length && sampled.length < n; i += step) {
    sampled.push(coords[i]);
  }
  return sampled;
}
```

The `for` loop is embedded as the tail-recursive `sampleGo`; the positivity
hypothesis on `step` records that `Math.max(…, 1) ≥ 1`, which is what makes
the JavaScript loop terminate. -/

/-- The loop of `sampleCoordinates`: starting at index `i` with accumulator
`sampled`, push `coords[i]` and advance by `step` while `i < coords.length`
and fewer than `n` elements are collected. -/
def sampleGo (coords : List α) (n step : Nat) (hstep : 0 < step)
    (i : Nat) (sampled : List α) : List α :=
  if h : i < coords.length ∧ sampled.length < n then
    sampleGo coords n step hstep (i + step) (sampled ++ [coords.get ⟨i, h.1⟩])
  else
    sampled
termination_by coords.length - i
decreasing_by omega

/-- `sampleCoordinates(coords, n)` from simple_geojson_converter.js:
`step = max(floor(coords.length / n), 1)`, then the collecting loop. -/
def sampleCoordinates (coords : List α) (n : Nat) : List α :=
  sampleGo coords n (Nat.max (coords.length / n) 1)
    (Nat.lt_of_lt_of_le Nat.one_pos (Nat.le_max_right _ _)) 0 []

/-- The list of indices `i, i+step, i+2*step, …` that are `< len`. -/
def strideFrom (len step : Nat) (hstep : 0 < step) (i : Nat) : List Nat :=
  if i < len then i :: strideFrom len step hstep (i + step) else []
termination_by len - i
decreasing_by omega

theorem strideFrom_eq (len step : Nat) (hstep : 0 < step) (i : Nat) :
    strideFrom len step hstep i =
      (List.range ((len - i + step - 1) / step)).map (fun k => i + k * step) := by
  by_cases h : i < len
  · rw [strideFrom, if_pos h,
      strideFrom_eq len step hstep (i + step)]
    have hL : (len - i + step - 1) / step = (len - i - 1) / step + 1 := by
      have h1 : len - i + step - 1 = (len - i - 1) + step := by omega
      rw [h1, Nat.add_div_right _ hstep]
    have hR : (len - (i + step) + step - 1) / step = (len - i - 1) / step := by
      rcases le_or_lt step (len - i) with hle | hlt
      · congr 1
        omega
      · have e1 : len - (i + step) + step - 1 = step - 1 := by omega
        have e2 : (step - 1) / step = 0 := Nat.div_eq_of_lt (by omega)
        have e3 : (len - i - 1) / step = 0 := Nat.div_eq_of_lt (by omega)
        rw [e1, e2, e3]
    rw [hL, hR, List.range_succ_eq_map]
    simp only [List.map_cons, List.map_map]
    congr 1
    · ring
    · apply List.map_congr_left
      intro k _
      simp only [Function.comp_apply, Nat.succ_eq_add_one]
      ring
  · rw [strideFrom, if_neg h]
    have : (len - i + step - 1) / step = 0 := by
      apply Nat.div_eq_of_lt
      omega
    rw [this]
    simp
termination_by len - i
decreasing_by omega

theorem sampleGo_eq (coords : List α) (d : α) (n step : Nat) (hstep : 0 < step)
    (i : Nat) (sampled : List α) :
    sampleGo coords n step hstep i sampled =
      sampled ++ ((strideFrom coords.length step hstep i).take (n - sampled.length)).map
        (fun j => coords.getD j d) := by
  rw [sampleGo]
  by_cases h : i < coords.length ∧ sampled.length < n
  · rw [dif_pos h, sampleGo_eq coords d n step hstep (i + step)]
    conv_rhs => rw [strideFrom, if_pos h.1]
    have hn : n - sampled.length = (n - (sampled ++ [coords.get ⟨i, h.1⟩]).length) + 1 := by
      simp only [List.length_append, List.length_singleton]
      omega
    rw [hn, List.take_succ_cons, List.map_cons]
    have hget : coords.getD i d = coords.get ⟨i, h.1⟩ := by
      simp [List.getD, List.getElem?_eq_getElem h.1]
    rw [hget, List.append_assoc]
    simp
  · rw [dif_neg h]
    rcases Decidable.not_and_iff_or_not.mp h with h' | h'
    · rw [strideFrom, if_neg h']
      simp
    · have hz : n - sampled.length = 0 := by omega
      rw [hz]
      simp
termination_by coords.length - i
decreasing_by omega

/-- Closed form of `sampleCoordinates`: with `step = max(len / n, 1)` and
`c = ⌈len / step⌉`, it returns the elements at indices
`0, step, 2·step, …`, truncated to `min n c` entries. -/
theorem sampleCoordinates_eq (coords : List α) (d : α) (n : Nat) :
    sampleCoordinates coords n =
      (List.range (Nat.min n
          ((coords.length + Nat.max (coords.length / n) 1 - 1) /
            Nat.max (coords.length / n) 1))).map
        (fun k => coords.getD (k * Nat.max (coords.length / n) 1) d) := by
  have key : ∀ (h : Nat → α) (m c : Nat),
      List.take m (List.map h (List.range c)) = List.map h (List.range (Nat.min m c)) := by
    intro h m c
    rw [← List.map_take, List.take_range]
  rw [sampleCoordinates, sampleGo_eq coords d, strideFrom_eq]
  simp only [List.length_nil, Nat.sub_zero, List.nil_append]
  rw [List.map_take, List.map_map, key]
  simp [Function.comp]

/-- C1: when the coordinate list has more elements than the budget
(`1 ≤ n < coords.length`), `sampleCoordinates` computes
`stride = max(⌊coords.length / n⌋, 1)` and returns exactly `n` elements,
the `k`-th being the input element at index `k * stride`.  The embedding is
a pure function, so repeated calls on the same input are identical by
construction (no randomness). -/
theorem sampleCoordinates_over_budget {α : Type} (d : α) (coords : List α) (n : Nat)
    (hn : 1 ≤ n) (hlen : n < coords.length) :
    (sampleCoordinates coords n).length = n ∧
    ∀ k, k < n →
      (sampleCoordinates coords n).getD k d =
        coords.getD (k * Nat.max (coords.length / n) 1) d := by
  have hn0 : 0 < n := hn
  have hdiv1 : 1 ≤ coords.length / n := (Nat.one_le_div_iff hn0).mpr (Nat.le_of_lt hlen)
  have hstep : 0 < Nat.max (coords.length / n) 1 :=
    Nat.lt_of_lt_of_le Nat.one_pos (Nat.le_max_right _ _)
  have hmax : Nat.max (coords.length / n) 1 = coords.length / n := Nat.max_eq_left hdiv1
  have hmul : n * Nat.max (coords.length / n) 1 ≤ coords.length := by
    rw [hmax, Nat.mul_comm]
    exact Nat.div_mul_le_self _ _
  have hge : n ≤ (coords.length + Nat.max (coords.length / n) 1 - 1) /
      Nat.max (coords.length / n) 1 := by
    have h1 : n ≤ coords.length / Nat.max (coords.length / n) 1 :=
      (Nat.le_div_iff_mul_le hstep).mpr hmul
    exact Nat.le_trans h1 (Nat.div_le_div_right (by omega))
  have hmin : Nat.min n ((coords.length + Nat.max (coords.length / n) 1 - 1) /
      Nat.max (coords.length / n) 1) = n := Nat.min_eq_left hge
  rw [sampleCoordinates_eq coords d n, hmin]
  constructor
  · simp
  · intro k hk
    have hk' : k < (List.range n).length := by simpa using hk
    have hk'' : k < ((List.range n).map
        (fun k => coords.getD (k * Nat.max (coords.length / n) 1) d)).length := by
      simpa using hk
    simp [List.getD, List.getElem?_map, List.getElem?_range hk]

/-- C2: when the coordinate list has at most `n` elements (`1 ≤ n`),
`sampleCoordinates` returns the input unchanged, in the original order. -/
theorem sampleCoordinates_identity {α : Type} (coords : List α) (n : Nat)
    (hn : 1 ≤ n) (hlen : coords.length ≤ n) :
    sampleCoordinates coords n = coords := by
  rcases coords with _ | ⟨a, as⟩
  · rw [sampleCoordinates, sampleGo]
    simp
  · set coords := a :: as with hc
    have hn0 : 0 < n := hn
    have hdivle : coords.length / n ≤ 1 := by
      have := Nat.div_le_div_right (c := n) hlen
      simpa [Nat.div_self hn0] using this
    have hmax : Nat.max (coords.length / n) 1 = 1 := Nat.max_eq_right hdivle
    have hmin : Nat.min n ((coords.length + Nat.max (coords.length / n) 1 - 1) /
        Nat.max (coords.length / n) 1) = coords.length := by
      rw [hmax]
      simp [Nat.min_eq_right, hlen]
    rw [sampleCoordinates_eq coords a n, hmin]
    apply List.ext_getElem
    · simp
    · intro i h1 h2
      have hi : i < (List.range coords.length).length := by simpa using h2
      simp [List.getD, List.getElem?_eq_getElem h2, hmax,
        List.getElem?_eq_getElem hi]

/-- Witness for C1 at a concrete input: seven elements, budget three,
stride `⌊7/3⌋ = 2`, output `[10, 30, 50]`. -/
theorem sampleCoordinates_over_budget_witness :
    (sampleCoordinates [10, 20, 30, 40, 50, 60, 70] 3).length = 3 ∧
    (sampleCoordinates [10, 20, 30, 40, 50, 60, 70] 3).getD 1 0 =
      [10, 20, 30, 40, 50, 60, 70].getD (1 * Nat.max ([10, 20, 30, 40, 50, 60, 70].length / 3) 1) 0 :=
  ⟨(sampleCoordinates_over_budget 0 [10, 20, 30, 40, 50, 60, 70] 3
      (by decide) (by decide)).1,
   (sampleCoordinates_over_budget 0 [10, 20, 30, 40, 50, 60, 70] 3
      (by decide) (by decide)).2 1 (by decide)⟩

/-- Witness for C2 at a concrete input: three elements, budget five. -/
theorem sampleCoordinates_identity_witness :
    sampleCoordinates [7, 8, 9] 5 = [7, 8, 9] :=
  sampleCoordinates_identity [7, 8, 9] 5 (by decide) (by decide)

/-! ## Query categorisation (environmental.ts lines 78–84)

```js
let category = "biodiversity";
if (query.toLowerCase().includes("forest") || query.toLowerCase().includes("deforest")) {
  category = "deforestation";
} else if (query.toLowerCase().includes("fire") || query.toLowerCase().includes("wildfire")) {
  category = "wildfire";
}
```

Strings are handled through their character lists; `Char.toLower` performs
the same ASCII `A–Z → a–z` mapping as JavaScript `toLowerCase` on the
ASCII queries at issue. -/

inductive Category where
  | deforestation
  | biodiversity
  | wildfire
deriving DecidableEq

/-- JavaScript `s.includes(sub)`: `sub` occurs contiguously inside `s`. -/
def jsIncludes (s sub : List Char) : Bool := decide (sub <:+: s)

/-- The keyword categorisation performed by `processWithGemini`. -/
def categorize (query : String) : Category :=
  let q := query.toList.map Char.toLower
  if jsIncludes q "forest".toList || jsIncludes q "deforest".toList then
    .deforestation
  else if jsIncludes q "fire".toList || jsIncludes q "wildfire".toList then
    .wildfire
  else
    .biodiversity

/-- The classification rules exactly as the spec words them (for the
refinement comparison in C3): contains "forest" or "deforest" →
deforestation; otherwise contains "fire" → wildfire; otherwise
biodiversity. -/
def specClassify (query : String) : Category :=
  let q := query.toList.map Char.toLower
  if jsIncludes q "forest".toList || jsIncludes q "deforest".toList then
    .deforestation
  else if jsIncludes q "fire".toList then
    .wildfire
  else
    .biodiversity

theorem jsIncludes_of_infix {s sub sub' : List Char}
    (hsub : sub <:+: sub') (h : jsIncludes s sub' = true) :
    jsIncludes s sub = true := by
  rw [jsIncludes, decide_eq_true_eq] at h ⊢
  exact hsub.trans h

/-- C3: the code's categorisation agrees with the spec's ordered
first-match rules on every query (the code's extra "wildfire" test is
subsumed by "fire"), and on the two named queries it returns
`deforestation` resp. `biodiversity`. -/
theorem categorize_spec :
    (∀ query : String, categorize query = specClassify query) ∧
    categorize "Wildfire risk in Michigan forests" = Category.deforestation ∧
    categorize "Biodiversity in Michigan wetlands" = Category.biodiversity := by
  refine ⟨fun query => ?_, by decide, by decide⟩
  rw [categorize, specClassify]
  have hfw : "fire".toList <:+: "wildfire".toList := by decide
  by_cases h1 : jsIncludes (query.toList.map Char.toLower) "forest".toList ||
      jsIncludes (query.toList.map Char.toLower) "deforest".toList
  · simp only [h1, if_true]
  · simp only [h1, Bool.false_eq_true, if_false]
    cases hf : jsIncludes (query.toList.map Char.toLower) "fire".toList
    · cases hw : jsIncludes (query.toList.map Char.toLower) "wildfire".toList
      · simp [hf, hw]
      · have hcontra := jsIncludes_of_infix hfw hw
        rw [hf] at hcontra
        exact Bool.noConfusion hcontra
    · simp [hf]

/-! ## Visualization synthesis (environmental.ts lines 191–271)

`generateVisualizations` always pushes the three artifacts
`pinpoints`, `heatmap`, `numbers` in that order;
`generateSingleVisualization` applies the category-specific adjustments:

```js
value:     category === "wildfire"      ? point.value * 0.6   : point.value,
intensity: category === "deforestation" ? 1 - cell.intensity  : cell.intensity,
change:    category === "wildfire"      ? Math.abs(metric.change) : metric.change,
```

`mockHeatmapData.data` is built with `Math.random()` at module load, so the
heatmap base cells are a parameter (`heatBase`) of the embedding; the other
mock constants are deterministic and embedded literally.  The
`lastUpdated: new Date().toISOString()` metadata field is a wall-clock
timestamp and is left out of the embedded metadata. -/

inductive Severity where
  | low
  | medium
  | high
deriving DecidableEq

structure Pinpoint where
  lat : ℚ
  lng : ℚ
  name : String
  value : ℚ
  severity : Severity
deriving DecidableEq

/-- `mockPinpointData` from environmental.ts lines 32–38. -/
def mockPinpointData : List Pinpoint :=
  [⟨46.5547, -84.3675, "Tahquamenon Falls State Park", 85, .low⟩,
   ⟨45.0218, -83.5539, "Huron-Manistee Forest", 65, .medium⟩,
   ⟨46.9059, -88.5498, "Copper Harbor", 40, .high⟩,
   ⟨42.4072, -83.9424, "Detroit River", 75, .medium⟩,
   ⟨44.3106, -85.6027, "Traverse City Bay", 90, .low⟩]

structure HeatCell where
  lat : ℚ
  lng : ℚ
  intensity : ℚ
  value : ℚ
deriving DecidableEq

structure Bounds where
  north : ℚ
  south : ℚ
  east : ℚ
  west : ℚ
deriving DecidableEq

structure HeatmapData where
  bounds : Bounds
  gridSize : ℚ
  data : List HeatCell
deriving DecidableEq

/-- `mockHeatmapData`: bounds and grid size are the literals from the
source; the 100 cells are produced with `Math.random()` and therefore
supplied as the parameter `cells`. -/
def mockHeatmapData (cells : List HeatCell) : HeatmapData :=
  ⟨⟨48.0, 41.0, -82.0, -90.0⟩, 10, cells⟩

structure Metric where
  label : String
  value : String
  change : ℚ
deriving DecidableEq

structure NumbersData where
  totalAffectedArea : ℚ
  percentageChange : ℚ
  timeframe : String
  keyMetrics : List Metric
deriving DecidableEq

/-- `mockNumbersData` from environmental.ts lines 57–67. -/
def mockNumbersData : NumbersData :=
  ⟨1250000, -12.5, "2017-2024",
   [⟨"Forest Coverage", "52.1%", -2.3⟩,
    ⟨"Wetland Area", "11.2M acres", -0.8⟩,
    ⟨"Species Count", "2,847", 1.2⟩,
    ⟨"Protected Areas", "102", 3.0⟩]⟩

inductive VisType where
  | pinpoints
  | heatmap
  | numbers
deriving DecidableEq

inductive VisData where
  | pinpoints (points : List Pinpoint)
  | heatmap (heat : HeatmapData)
  | numbers (nums : NumbersData)
deriving DecidableEq

structure Metadata where
  title : String
  description : String
  source : String
deriving DecidableEq

/-- The per-category `metadata` table of `generateSingleVisualization`. -/
def categoryMetadata : Category → Metadata
  | .deforestation =>
      ⟨"Forest Coverage Changes",
       "Areas of significant forest loss and recovery in Michigan",
       "Michigan DNR, USFS"⟩
  | .biodiversity =>
      ⟨"Biodiversity Hotspots",
       "Species-rich areas and conservation priorities",
       "Michigan DNR Wildlife Division"⟩
  | .wildfire =>
      ⟨"Wildfire Risk Assessment",
       "Fire danger zones and prevention areas",
       "Michigan DNR Fire Division"⟩

structure Visualization where
  type : VisType
  data : VisData
  metadata : Metadata
deriving DecidableEq

/-- `generateSingleVisualization(type, category)` from environmental.ts
lines 213–271 (the `switch` on `type`). -/
def generateSingleVisualization (heatBase : List HeatCell) (t : VisType)
    (c : Category) : Visualization :=
  match t with
  | .pinpoints =>
      ⟨.pinpoints,
       .pinpoints (mockPinpointData.map fun point =>
         { point with
           value := if c = .wildfire then point.value * 0.6 else point.value }),
       categoryMetadata c⟩
  | .heatmap =>
      ⟨.heatmap,
       .heatmap { mockHeatmapData heatBase with
         data := (mockHeatmapData heatBase).data.map fun cell =>
           { cell with
             intensity := if c = .deforestation then 1 - cell.intensity
               else cell.intensity } },
       categoryMetadata c⟩
  | .numbers =>
      ⟨.numbers,
       .numbers { mockNumbersData with
         keyMetrics := mockNumbersData.keyMetrics.map fun metric =>
           { metric with
             change := if c = .wildfire then |metric.change| else metric.change } },
       categoryMetadata c⟩

/-- `generateVisualizations(category)` from environmental.ts lines 191–202:
always pushes pinpoints, heatmap and numbers, in that order. -/
def generateVisualizations (heatBase : List HeatCell) (c : Category) :
    List Visualization :=
  [generateSingleVisualization heatBase .pinpoints c,
   generateSingleVisualization heatBase .heatmap c,
   generateSingleVisualization heatBase .numbers c]

/-- The pinpoint payload of a visualization's data. -/
def pinData : VisData → List Pinpoint
  | .pinpoints points => points
  | _ => []

/-- C4: for every category (and any heatmap base cells), synthesis returns
exactly three artifacts, discriminated and ordered
`[pinpoints, heatmap, numbers]`. -/
theorem generateVisualizations_three (heatBase : List HeatCell) (c : Category) :
    (generateVisualizations heatBase c).map Visualization.type =
      [VisType.pinpoints, VisType.heatmap, VisType.numbers] := by
  rfl

/-- C5: for category deforestation every heatmap cell's intensity becomes
`1 - intensity`; for every other category the heatmap cells pass through
unchanged; and for deforestation the numbers artifact's key metrics keep
their original (signed) changes. -/
theorem deforestation_visualization_spec :
    (∀ heatBase : List HeatCell,
        (generateSingleVisualization heatBase .heatmap .deforestation).data =
          .heatmap { mockHeatmapData heatBase with
            data := heatBase.map fun cell =>
              { cell with intensity := 1 - cell.intensity } }) ∧
    (∀ (heatBase : List HeatCell) (c : Category), c ≠ .deforestation →
        (generateSingleVisualization heatBase .heatmap c).data =
          .heatmap (mockHeatmapData heatBase)) ∧
    (∀ heatBase : List HeatCell,
        (generateSingleVisualization heatBase .numbers .deforestation).data =
          .numbers mockNumbersData) := by
  refine ⟨fun heatBase => rfl, ?_, fun heatBase => rfl⟩
  intro heatBase c hc
  cases c with
  | deforestation => exact absurd rfl hc
  | biodiversity =>
      have h : (generateSingleVisualization heatBase .heatmap .biodiversity).data =
          .heatmap { mockHeatmapData heatBase with
            data := heatBase.map fun cell => cell } := rfl
      rw [h, List.map_id']
      rfl
  | wildfire =>
      have h : (generateSingleVisualization heatBase .heatmap .wildfire).data =
          .heatmap { mockHeatmapData heatBase with
            data := heatBase.map fun cell => cell } := rfl
      rw [h, List.map_id']
      rfl

/-- Witness for C5 at concrete inputs: one heatmap cell, category
wildfire (≠ deforestation) passes the cell through unchanged. -/
theorem deforestation_visualization_spec_witness :
    (generateSingleVisualization [⟨45, -85, 1/4, 10⟩] .heatmap .wildfire).data =
      .heatmap (mockHeatmapData [⟨45, -85, 1/4, 10⟩]) :=
  deforestation_visualization_spec.2.1 [⟨45, -85, 1/4, 10⟩] .wildfire (by decide)

/-- C6: for category wildfire every pinpoint's value is scaled by 0.6 and
every numbers metric's change becomes its absolute value; for every other
category both pass through unchanged. -/
theorem wildfire_visualization_spec :
    (∀ heatBase : List HeatCell,
        (generateSingleVisualization heatBase .pinpoints .wildfire).data =
          .pinpoints (mockPinpointData.map fun point =>
            { point with value := point.value * 0.6 })) ∧
    (∀ (heatBase : List HeatCell) (c : Category), c ≠ .wildfire →
        (generateSingleVisualization heatBase .pinpoints c).data =
          .pinpoints mockPinpointData) ∧
    (∀ heatBase : List HeatCell,
        (generateSingleVisualization heatBase .numbers .wildfire).data =
          .numbers { mockNumbersData with
            keyMetrics := mockNumbersData.keyMetrics.map fun metric =>
              { metric with change := |metric.change| } }) ∧
    (∀ (heatBase : List HeatCell) (c : Category), c ≠ .wildfire →
        (generateSingleVisualization heatBase .numbers c).data =
          .numbers mockNumbersData) := by
  refine ⟨fun heatBase => rfl, ?_, fun heatBase => rfl, ?_⟩ <;>
    · intro heatBase c hc
      cases c with
      | deforestation => rfl
      | biodiversity => rfl
      | wildfire => exact absurd rfl hc

/-- Witness for C6 at concrete inputs: category deforestation (≠ wildfire)
passes pinpoint values and metric changes through unchanged. -/
theorem wildfire_visualization_spec_witness :
    (generateSingleVisualization [] .pinpoints .deforestation).data =
      .pinpoints mockPinpointData ∧
    (generateSingleVisualization [] .numbers .deforestation).data =
      .numbers mockNumbersData :=
  ⟨wildfire_visualization_spec.2.1 [] .deforestation (by decide),
   wildfire_visualization_spec.2.2.2 [] .deforestation (by decide)⟩

/-- C10 (implicit frame effect): for every category the synthesised
pinpoints artifact has exactly as many points as `mockPinpointData`, in the
same order, with `lat`, `lng`, `name` and `severity` unchanged; and for
every category other than wildfire even `value` is unchanged, so the list
is identical. -/
theorem pinpoints_frame (heatBase : List HeatCell) (c : Category) :
    (pinData (generateSingleVisualization heatBase .pinpoints c).data).length =
        mockPinpointData.length ∧
    (pinData (generateSingleVisualization heatBase .pinpoints c).data).map
        (fun point => (point.lat, point.lng, point.name, point.severity)) =
      mockPinpointData.map
        (fun point => (point.lat, point.lng, point.name, point.severity)) ∧
    (c ≠ .wildfire →
      pinData (generateSingleVisualization heatBase .pinpoints c).data =
        mockPinpointData) := by
  cases c with
  | deforestation => exact ⟨rfl, rfl, fun _ => rfl⟩
  | biodiversity => exact ⟨rfl, rfl, fun _ => rfl⟩
  | wildfire => exact ⟨rfl, rfl, fun hc => absurd rfl hc⟩

/-- Witness for C10 at concrete inputs: category biodiversity leaves the
pinpoint list exactly equal to the base dataset. -/
theorem pinpoints_frame_witness :
    pinData (generateSingleVisualization [] .pinpoints .biodiversity).data =
      mockPinpointData :=
  (pinpoints_frame [] .biodiversity).2.2 (by decide)

/-! ## Coordinate extraction (simple_geojson_converter.js lines 10–38)

```js
geojson.features.forEach((feature) => {
  const label = feature.properties?.FieldName || "Unknown";
  const geometry = feature.geometry;
  if (geometry.type === "Polygon") { … ring.forEach(([lng, lat]) => coords.push({ lat, lng, label })) … }
  else if (geometry.type === "MultiPolygon") { … }
  else if (geometry.type === "Point") { const [lng, lat] = geometry.coordinates; coords.push({ lat, lng, label }); }
});
```

Input vertices are GeoJSON positions `[lng, lat]`, modelled as pairs with
`.1 = lng` and `.2 = lat`.  A feature's `properties` object is modelled by
the two fields the repository reads for labels (`FieldName` and `name`),
each `Option String` with `none` for an absent property.  A geometry whose
`type` tag is none of `Point`/`Polygon`/`MultiPolygon` is `Geometry.other
tag`. -/

inductive Geometry where
  | point (coordinates : ℚ × ℚ)
  | polygon (coordinates : List (List (ℚ × ℚ)))
  | multiPolygon (coordinates : List (List (List (ℚ × ℚ))))
  | other (tag : String)
deriving DecidableEq

structure Feature where
  fieldName : Option String
  name : Option String
  geometry : Geometry
deriving DecidableEq

structure GeoJson where
  features : List Feature
deriving DecidableEq

structure CoordPoint where
  lat : ℚ
  lng : ℚ
  label : String
deriving DecidableEq

/-- `feature.properties?.FieldName || "Unknown"`: JavaScript `||` takes the
right operand on the falsy values, which for a string-or-absent property
are `undefined` and `""`. -/
def featureLabel (f : Feature) : String :=
  match f.fieldName with
  | some s => if s = "" then "Unknown" else s
  | none => "Unknown"

/-- The per-feature body of the `forEach` in `extractCoordinates`. -/
def extractFeature (f : Feature) : List CoordPoint :=
  match f.geometry with
  | .polygon rings =>
      rings.flatMap fun ring => ring.map fun v => ⟨v.2, v.1, featureLabel f⟩
  | .multiPolygon polys =>
      polys.flatMap fun poly => poly.flatMap fun ring =>
        ring.map fun v => ⟨v.2, v.1, featureLabel f⟩
  | .point v => [⟨v.2, v.1, featureLabel f⟩]
  | .other _ => []

/-- `extractCoordinates(geojson)`: flatten all features' coordinates into a
single array, in feature order. -/
def extractCoordinates (geojson : GeoJson) : List CoordPoint :=
  geojson.features.flatMap extractFeature

theorem length_flatMap_const {β γ : Type} {l : List β} {g : β → List γ} {c : Nat}
    (h : ∀ x ∈ l, (g x).length = c) :
    (l.flatMap g).length = l.length * c := by
  induction l with
  | nil => simp
  | cons a t ih =>
      rw [List.flatMap_cons, List.length_append, h a (List.mem_cons_self a t),
        ih (fun x hx => h x (List.mem_cons_of_mem a hx)), List.length_cons]
      ring

/-- C7: a MultiPolygon feature with `k` polygons of `m` rings of `n`
vertices yields exactly `k·m·n` coordinate points, each point being the
input vertex with `(lng, lat)` swapped to `(lat, lng)` exactly once; a
Point feature yields one swapped point and a Polygon feature yields every
vertex of every ring, swapped once. -/
theorem extractFeature_counts_and_swap :
    (∀ (f : Feature) (polys : List (List (List (ℚ × ℚ)))) (k m n : Nat),
      f.geometry = .multiPolygon polys →
      polys.length = k →
      (∀ poly ∈ polys, poly.length = m) →
      (∀ poly ∈ polys, ∀ ring ∈ poly, ring.length = n) →
      extractFeature f = polys.flatMap (fun poly => poly.flatMap fun ring =>
        ring.map fun v => ⟨v.2, v.1, featureLabel f⟩) ∧
      (extractFeature f).length = k * m * n) ∧
    (∀ (f : Feature) (v : ℚ × ℚ), f.geometry = .point v →
      extractFeature f = [⟨v.2, v.1, featureLabel f⟩]) ∧
    (∀ (f : Feature) (rings : List (List (ℚ × ℚ))), f.geometry = .polygon rings →
      extractFeature f = rings.flatMap fun ring =>
        ring.map fun v => ⟨v.2, v.1, featureLabel f⟩) := by
  refine ⟨?_, ?_, ?_⟩
  · intro f polys k m n hg hk hm hn
    have he : extractFeature f = polys.flatMap (fun poly => poly.flatMap fun ring =>
        ring.map fun v => ⟨v.2, v.1, featureLabel f⟩) := by
      simp [extractFeature, hg]
    refine ⟨he, ?_⟩
    rw [he, length_flatMap_const (c := m * n), hk]
    · ring
    · intro poly hpoly
      rw [length_flatMap_const (c := n), hm poly hpoly]
      intro ring hring
      rw [List.length_map]
      exact hn poly hpoly ring hring
  · intro f v hg
    simp [extractFeature, hg]
  · intro f rings hg
    simp [extractFeature, hg]

/-- Witness for C7 at a concrete input: one polygon of two rings of two
vertices gives `1·2·2 = 4` points, and a Point feature gives the single
swapped point. -/
theorem extractFeature_counts_and_swap_witness :
    (extractFeature ⟨some "A", none,
        .multiPolygon [[[(1, 2), (3, 4)], [(5, 6), (7, 8)]]]⟩).length = 1 * 2 * 2 ∧
    extractFeature ⟨some "P", none, .point (-84, 45)⟩ =
      [⟨45, -84, featureLabel ⟨some "P", none, .point (-84, 45)⟩⟩] :=
  ⟨(extractFeature_counts_and_swap.1 ⟨some "A", none,
        .multiPolygon [[[(1, 2), (3, 4)], [(5, 6), (7, 8)]]]⟩
      [[[(1, 2), (3, 4)], [(5, 6), (7, 8)]]] 1 2 2 rfl rfl
      (by decide) (by decide)).2,
   extractFeature_counts_and_swap.2.1 ⟨some "P", none, .point (-84, 45)⟩
      (-84, 45) rfl⟩

/-- The error the spec's taxonomy assigns to an unknown geometry tag. -/
inductive ExtractError where
  | unsupportedGeometry (tag : String)
deriving DecidableEq

/-- Per-feature extraction written from the spec's words, for the
refinement comparison in C8 ("Unknown/unsupported geometry types fail with
`UnsupportedGeometryError`; the extractor does not guess"): a feature whose
geometry tag is not Point/Polygon/MultiPolygon fails with the error, the
supported shapes extract as the code does. -/
def specExtractFeature (f : Feature) : Except ExtractError (List CoordPoint) :=
  match f.geometry with
  | .other tag => .error (.unsupportedGeometry tag)
  | _ => .ok (extractFeature f)

/-- Counterexample to C8 at a concrete input: a dataset holding a
LineString feature and a Point feature extracts to exactly the same value
as the dataset without the LineString feature — the unsupported feature is
silently skipped and nothing in the result reports a failure — whereas the
spec-worded extractor fails that feature with `UnsupportedGeometryError`. -/
theorem extract_unsupported_counterexample :
    extractCoordinates ⟨[⟨some "L", none, .other "LineString"⟩,
        ⟨some "P", none, .point (2, 1)⟩]⟩ =
      extractCoordinates ⟨[⟨some "P", none, .point (2, 1)⟩]⟩ ∧
    specExtractFeature ⟨some "L", none, .other "LineString"⟩ =
      .error (.unsupportedGeometry "LineString") :=
  ⟨rfl, rfl⟩

/-- C8 amended: a feature whose geometry type is not Point, Polygon or
MultiPolygon is silently skipped — it contributes no coordinates and no
error — and extraction of the remaining features proceeds unconditionally
(the script has no strict mode). -/
theorem extract_unsupported_skipped (fs₁ fs₂ : List Feature) (f : Feature)
    (tag : String) (h : f.geometry = .other tag) :
    extractCoordinates ⟨fs₁ ++ f :: fs₂⟩ = extractCoordinates ⟨fs₁ ++ fs₂⟩ := by
  have hf : extractFeature f = [] := by
    simp [extractFeature, h]
  simp [extractCoordinates, hf]

/-- Witness for the amended C8 at concrete inputs. -/
theorem extract_unsupported_skipped_witness :
    extractCoordinates ⟨[⟨some "P", none, .point (2, 1)⟩,
        ⟨some "L", none, .other "LineString"⟩,
        ⟨some "Q", none, .point (4, 3)⟩]⟩ =
      extractCoordinates ⟨[⟨some "P", none, .point (2, 1)⟩,
        ⟨some "Q", none, .point (4, 3)⟩]⟩ :=
  extract_unsupported_skipped [⟨some "P", none, .point (2, 1)⟩]
    [⟨some "Q", none, .point (4, 3)⟩]
    ⟨some "L", none, .other "LineString"⟩ "LineString" rfl

/-- C9 (code bug): the script labels a feature that carries a `name`
property but no `FieldName` property as `"Unknown"` — it never consults
`name`, contradicting the documented precedence
`FieldName → name → "Unknown"` (README: "Use `FieldName` or `name`
properties for labels").  This theorem evaluates the code at that failing
input. -/
theorem label_ignores_name_property :
    extractCoordinates ⟨[⟨none, some "Huron Field", .point (-84, 45)⟩]⟩ =
      [⟨45, -84, "Unknown"⟩] :=
  rfl

end Mitten
